import Mathlib

/-!
Verification of the monthly US macro/labor dataset builder
(`scripts/build_us_macro_labor_dataset.py`).

The script's pure core is embedded shallowly:
* Python `datetime.date` becomes `PyDate` (the constructor's month bounds are
  carried as fields, since Python cannot construct a date outside them);
* Python dicts keyed by `int` become association lists with insertion-order
  update semantics (`dictSet` / `dictGet`);
* Python floats become `ℚ` (all arithmetic performed by the embedded code is
  exact on the inputs considered);
* fallible Python code (uncaught `KeyError` / `IndexError` / `ValueError`)
  returns `Except Unit`.
-/

/-- A Python `datetime.date`: year, month, day.  The constructor validates
`1 ≤ month ≤ 12`; those bounds are intrinsic here (they are also what makes
the `month_range` loop terminate).  Day validity against the month length is
expressed separately by `daysInMonth`. -/
@[ext]
structure PyDate where
  year : Int
  month : Int
  day : Int
  month_ge : 1 ≤ month
  month_le : month ≤ 12

instance : DecidableEq PyDate := fun a b =>
  decidable_of_iff (a.year = b.year ∧ a.month = b.month ∧ a.day = b.day)
    (by constructor
        · rintro ⟨h1, h2, h3⟩; exact PyDate.ext h1 h2 h3
        · rintro rfl; exact ⟨rfl, rfl, rfl⟩)

/-- Python's `date < date`: lexicographic on (year, month, day). -/
def dateLt (a b : PyDate) : Prop :=
  a.year < b.year ∨
    (a.year = b.year ∧ (a.month < b.month ∨ (a.month = b.month ∧ a.day < b.day)))

/-- Python's `date <= date`. -/
def dateLe (a b : PyDate) : Prop :=
  dateLt a b ∨ (a.year = b.year ∧ a.month = b.month ∧ a.day = b.day)

instance (a b : PyDate) : Decidable (dateLt a b) := by unfold dateLt; infer_instance

instance (a b : PyDate) : Decidable (dateLe a b) := by unfold dateLe; infer_instance

/-- Month index: `year * 12 + month`.  Strictly monotone along the sequence of
calendar months. -/
def dateIdx (d : PyDate) : Int := d.year * 12 + d.month

/-- The Python leap-year rule used by `datetime.date` validation. -/
def isLeap (y : Int) : Prop := y % 4 = 0 ∧ (y % 100 ≠ 0 ∨ y % 400 = 0)

instance (y : Int) : Decidable (isLeap y) := by unfold isLeap; infer_instance

/-- Number of days `datetime.date` accepts in a given month. -/
def daysInMonth (y m : Int) : Int :=
  if m = 2 then (if isLeap y then 29 else 28)
  else if m = 4 ∨ m = 6 ∨ m = 9 ∨ m = 11 then 30
  else 31

/-- Replace the day component of a date (the year/month bounds are untouched). -/
def setDay (d : PyDate) (x : Int) : PyDate :=
  ⟨d.year, d.month, x, d.month_ge, d.month_le⟩

/-- The date of a given month index (inverse of `dateIdx` on first-of-month
dates).  `/` and `%` on `Int` are euclidean division/remainder, so the month
component always lands in `[1, 12]`. -/
def monthOfIdx (n : Int) : PyDate :=
  ⟨(n - 1) / 12, (n - 1) % 12 + 1, 1, by omega, by omega⟩

theorem dateIdx_monthOfIdx (n : Int) : dateIdx (monthOfIdx n) = n := by
  unfold dateIdx monthOfIdx; simp only; omega

theorem monthOfIdx_day (n : Int) : (monthOfIdx n).day = 1 := rfl

theorem dateLt_monthOfIdx {a b : Int} (h : a < b) :
    dateLt (monthOfIdx a) (monthOfIdx b) := by
  unfold dateLt monthOfIdx; simp only; omega

/-- The loop of `month_range` (source lines 52–61):

    y, m = start.year, start.month
    while (y < end.year) or (y == end.year and m <= end.month):
        yield date(y, m, 1)
        if m == 12: y += 1; m = 1
        else: m += 1

Recursion is on the month distance to the end date; the month bounds carried
by `PyDate` are what make the measure decrease whenever the guard holds. -/
def month_range_go (endY endM : Int) (he1 : 1 ≤ endM) (he2 : endM ≤ 12)
    (y m : Int) (h1 : 1 ≤ m) (h2 : m ≤ 12) : List PyDate :=
  if h : y < endY ∨ (y = endY ∧ m ≤ endM) then
    ⟨y, m, 1, h1, h2⟩ ::
      (if hm : m = 12 then
        month_range_go endY endM he1 he2 (y + 1) 1 (by omega) (by omega)
      else
        month_range_go endY endM he1 he2 y (m + 1) (by omega) (by omega))
  else []
termination_by (endY * 12 + endM + 1 - (y * 12 + m)).toNat
decreasing_by all_goals omega

/-- Function `month_range(start, end)` (source lines 52–61): yield the first day of each month between
`start` and `end` inclusive (source lines 52–61). -/
def month_range (s e : PyDate) : List PyDate :=
  month_range_go e.year e.month e.month_ge e.month_le s.year s.month s.month_ge s.month_le

theorem month_range_go_eq (k : Nat) :
    ∀ (endY endM : Int) (he1 : 1 ≤ endM) (he2 : endM ≤ 12)
      (y m : Int) (h1 : 1 ≤ m) (h2 : m ≤ 12),
      (endY * 12 + endM + 1 - (y * 12 + m)).toNat = k →
      month_range_go endY endM he1 he2 y m h1 h2 =
        (List.range k).map (fun i : Nat => monthOfIdx (y * 12 + m + (i : Int))) := by
  induction k with
  | zero =>
    intro endY endM he1 he2 y m h1 h2 hk
    rw [month_range_go]
    rw [dif_neg]
    · simp
    · omega
  | succ k ih =>
    intro endY endM he1 he2 y m h1 h2 hk
    rw [month_range_go]
    rw [dif_pos (by omega)]
    rw [List.range_succ_eq_map]
    simp only [List.map_cons, List.map_map]
    congr 1
    · apply PyDate.ext <;> (unfold monthOfIdx; simp only) <;> omega
    · by_cases hm : m = 12
      · rw [dif_pos hm, ih endY endM he1 he2 (y + 1) 1 (by omega) (by omega) (by omega)]
        apply List.map_congr_left
        intro i _
        simp only [Function.comp]
        congr 1
        omega
      · rw [dif_neg hm, ih endY endM he1 he2 y (m + 1) (by omega) (by omega) (by omega)]
        apply List.map_congr_left
        intro i _
        simp only [Function.comp]
        congr 1
        omega

/-- Characterization: `month_range` is the map of `monthOfIdx` over the month-index interval
`[dateIdx s, dateIdx e]`. -/
theorem month_range_eq (s e : PyDate) :
    month_range s e =
      (List.range ((dateIdx e + 1 - dateIdx s).toNat)).map
        (fun i : Nat => monthOfIdx (dateIdx s + (i : Int))) := by
  unfold month_range dateIdx
  exact month_range_go_eq _ _ _ _ _ _ _ _ _ rfl

theorem dateIdx_le_of_dateLe {s e : PyDate} (h : dateLe s e) : dateIdx s ≤ dateIdx e := by
  rcases h with h | ⟨h1, h2, _⟩
  · unfold dateIdx
    rcases h with h | ⟨h1, h | ⟨h2, _⟩⟩
    · have := s.month_le; have := e.month_ge; omega
    · omega
    · omega
  · unfold dateIdx; omega

theorem month_range_length (s e : PyDate) :
    (month_range s e).length = (dateIdx e + 1 - dateIdx s).toNat := by
  rw [month_range_eq]; simp

theorem month_range_mem_iff (s e : PyDate) (d : PyDate) :
    d ∈ month_range s e ↔
      d.day = 1 ∧ d = monthOfIdx (dateIdx d) ∧
        dateIdx s ≤ dateIdx d ∧ dateIdx d ≤ dateIdx e := by
  rw [month_range_eq]
  simp only [List.mem_map, List.mem_range]
  constructor
  · rintro ⟨i, hi, rfl⟩
    refine ⟨rfl, ?_, ?_, ?_⟩
    · rw [dateIdx_monthOfIdx]
    · rw [dateIdx_monthOfIdx]; omega
    · rw [dateIdx_monthOfIdx]; omega
  · rintro ⟨_, hd, hlo, hhi⟩
    refine ⟨(dateIdx d - dateIdx s).toNat, by omega, ?_⟩
    conv_rhs => rw [hd]
    congr 1
    omega

theorem month_range_chain (s e : PyDate) :
    List.Chain' (fun a b => dateIdx b = dateIdx a + 1) (month_range s e) := by
  rw [month_range_eq]
  rw [List.chain'_map]
  rw [List.chain'_iff_get]
  intro i hi
  simp only [List.get_eq_getElem, List.getElem_range]
  rw [dateIdx_monthOfIdx, dateIdx_monthOfIdx]
  omega

theorem month_range_chain_lt (s e : PyDate) :
    List.Chain' dateLt (month_range s e) := by
  rw [month_range_eq]
  rw [List.chain'_map]
  rw [List.chain'_iff_get]
  intro i hi
  simp only [List.get_eq_getElem, List.getElem_range]
  apply dateLt_monthOfIdx
  omega

theorem monthOfIdx_dateIdx (d : PyDate) :
    monthOfIdx (dateIdx d) = ⟨d.year, d.month, 1, d.month_ge, d.month_le⟩ := by
  have hg := d.month_ge
  have hl := d.month_le
  apply PyDate.ext <;> (unfold dateIdx monthOfIdx; simp only) <;> omega

theorem month_range_head (s e : PyDate) (h : dateIdx s ≤ dateIdx e) :
    (month_range s e).head? = some ⟨s.year, s.month, 1, s.month_ge, s.month_le⟩ := by
  rw [month_range_eq]
  have hk : (dateIdx e + 1 - dateIdx s).toNat = (dateIdx e - dateIdx s).toNat + 1 := by
    omega
  rw [hk, List.range_succ_eq_map]
  simp only [List.map_cons, List.head?_cons, Int.Nat.cast_ofNat_Int, add_zero]
  rw [monthOfIdx_dateIdx]

theorem month_range_empty_iff (s e : PyDate) :
    month_range s e = [] ↔ dateIdx e < dateIdx s := by
  rw [month_range_eq]
  rw [List.map_eq_nil_iff, List.range_eq_nil]
  omega

/-- Claim C9. For all dates `start ≤ end` (Python's lexicographic date order),
`month_range` yields exactly `(end.year*12+end.month) - (start.year*12+start.month) + 1`
dates, consecutive calendar months with no skips (each successor's month index
is the predecessor's plus one, hence strictly ascending), each with
day-of-month 1, starting at start's month.  As amended: the output is empty
iff the month index of `end` is below the month index of `start`; when
`end < start` holds only by day-of-month within the same calendar month, the
output is that single month, not the empty sequence. -/
theorem claim_C9_month_axis (s e : PyDate) :
    (dateLe s e →
      ((month_range s e).length : Int) =
          (e.year * 12 + e.month) - (s.year * 12 + s.month) + 1 ∧
        List.Chain' (fun a b => dateIdx b = dateIdx a + 1) (month_range s e) ∧
        List.Chain' dateLt (month_range s e) ∧
        (∀ d ∈ month_range s e, d.day = 1) ∧
        (month_range s e).head? = some ⟨s.year, s.month, 1, s.month_ge, s.month_le⟩) ∧
      (month_range s e = [] ↔ dateIdx e < dateIdx s) := by
  refine ⟨fun h => ?_, month_range_empty_iff s e⟩
  have hle := dateIdx_le_of_dateLe h
  refine ⟨?_, month_range_chain s e, month_range_chain_lt s e, ?_,
    month_range_head s e hle⟩
  · rw [month_range_length]
    unfold dateIdx at hle ⊢
    omega
  · intro d hd
    exact ((month_range_mem_iff s e d).mp hd).1

theorem claim_C9_month_axis_witness :
    ((month_range ⟨2019, 11, 1, by norm_num, by norm_num⟩
        ⟨2020, 2, 1, by norm_num, by norm_num⟩).length : Int) =
      (2020 * 12 + 2) - (2019 * 12 + 11) + 1 :=
  ((claim_C9_month_axis ⟨2019, 11, 1, by norm_num, by norm_num⟩
    ⟨2020, 2, 1, by norm_num, by norm_num⟩).1 (by decide)).1

/-- Claim C9, counterexample to the claim as stated.  The claim says that for
`end < start` the generator yields the empty sequence.  With
`start = 2020-05-10` and `end = 2020-05-01` we have `end < start` in Python's
date order, yet `month_range` yields the single date `2020-05-01`. -/
theorem claim_C9_counterexample :
    dateLt ⟨2020, 5, 1, by norm_num, by norm_num⟩ ⟨2020, 5, 10, by norm_num, by norm_num⟩ ∧
      month_range ⟨2020, 5, 10, by norm_num, by norm_num⟩
          ⟨2020, 5, 1, by norm_num, by norm_num⟩ =
        [⟨2020, 5, 1, by norm_num, by norm_num⟩] := by
  refine ⟨by decide, ?_⟩
  rw [month_range_eq]
  decide

/-- Claim C10. The output of `month_range` depends only on the year and month of its
arguments: replacing the day components by any days valid in the respective
months leaves the output unchanged, so the spec's day-of-month = 1
normalization is not a precondition. -/
theorem claim_C10_day_irrelevant (s e : PyDate) (d1 d2 : Int)
    (h1 : 1 ≤ d1) (h1' : d1 ≤ daysInMonth s.year s.month)
    (h2 : 1 ≤ d2) (h2' : d2 ≤ daysInMonth e.year e.month) :
    month_range (setDay s d1) (setDay e d2) = month_range s e := rfl

theorem claim_C10_day_irrelevant_witness :
    month_range (setDay ⟨2020, 1, 15, by norm_num, by norm_num⟩ 31)
        (setDay ⟨2020, 3, 1, by norm_num, by norm_num⟩ 5) =
      month_range ⟨2020, 1, 15, by norm_num, by norm_num⟩
        ⟨2020, 3, 1, by norm_num, by norm_num⟩ :=
  claim_C10_day_irrelevant ⟨2020, 1, 15, by norm_num, by norm_num⟩
    ⟨2020, 3, 1, by norm_num, by norm_num⟩ 31 5
    (by norm_num) (by decide) (by norm_num) (by decide)

/-- Python `sorted(zip(values, weights), key=lambda item: item[0])` (source line 193):
Python's ascending sort comparing only the value component.  Python's sort is
stable, but `weighted_median`'s result is insensitive to how ties among equal
values are broken (tied pairs carry the same value and the same block weight),
so insertion sort on the value order is a faithful model of the observable
behaviour. -/
def sortPairs (l : List (ℚ × ℚ)) : List (ℚ × ℚ) :=
  List.insertionSort (fun a b : ℚ × ℚ => a.1 ≤ b.1) l

/-- Ascending sort of plain values (used to state median properties). -/
def sortValues (l : List ℚ) : List ℚ :=
  List.insertionSort (fun a b : ℚ => a ≤ b) l

/-- The accumulation loop of `weighted_median` (source lines 198–202):

    running = 0.0
    for value, weight in pairs:
        running += weight
        if running >= cutoff: return value

`none` means the loop fell through without returning. -/
def wmLoop (cutoff : ℚ) : List (ℚ × ℚ) → ℚ → Option ℚ
  | [], _ => none
  | (v, w) :: rest, running =>
    if cutoff ≤ running + w then some v else wmLoop cutoff rest (running + w)

/-- The part of `weighted_median` after the pairs are sorted (source lines
194–203): `total = sum(w for _, w in pairs)`, `if total <= 0: return None`,
the accumulation loop, and the `return pairs[-1][0]` fallback. -/
def wmTail (pairs : List (ℚ × ℚ)) : Option ℚ :=
  if (pairs.map Prod.snd).sum ≤ 0 then none
  else
    match wmLoop ((pairs.map Prod.snd).sum / 2) pairs 0 with
    | some v => some v
    | none => (pairs.getLast?).map Prod.fst

/-- Function `weighted_median(values, weights)` (source lines 190–203).  `zip`
truncates to the shorter list, exactly as in Python. -/
def weighted_median (values weights : List ℚ) : Option ℚ :=
  if values = [] ∨ weights = [] then none
  else wmTail (sortPairs (values.zip weights))

/-- The spec's "ordinary median", written from the spec's words (claim C4's
comparison point), not from any source function: sort the values ascending;
an odd count yields the middle value, an even count the mean of the two
middle values. -/
def ordinaryMedian (values : List ℚ) : Option ℚ :=
  if values.length = 0 then none
  else if values.length % 2 = 1 then (sortValues values)[values.length / 2]?
  else
    match (sortValues values)[values.length / 2 - 1]?, (sortValues values)[values.length / 2]? with
    | some a, some b => some ((a + b) / 2)
    | _, _ => none

instance instPairFstLeTotal : IsTotal (ℚ × ℚ) (fun a b : ℚ × ℚ => a.1 ≤ b.1) :=
  ⟨fun a b => le_total a.1 b.1⟩

instance instPairFstLeTrans : IsTrans (ℚ × ℚ) (fun a b : ℚ × ℚ => a.1 ≤ b.1) :=
  ⟨fun _ _ _ h1 h2 => le_trans h1 h2⟩

theorem zip_replicate_one (l : List ℚ) :
    l.zip (List.replicate l.length (1 : ℚ)) = l.map (fun v => (v, (1 : ℚ))) := by
  induction l with
  | nil => rfl
  | cons x xs ih => simp [List.replicate_succ, ih]

theorem map_fst_map_unit (l : List (ℚ × ℚ)) (h : ∀ p ∈ l, p.2 = 1) :
    (l.map Prod.fst).map (fun v => (v, (1 : ℚ))) = l := by
  induction l with
  | nil => rfl
  | cons p ps ih =>
    have hp : p.2 = 1 := h p (List.mem_cons_self p ps)
    simp only [List.map_cons, List.cons.injEq]
    constructor
    · exact Prod.ext rfl hp.symm
    · exact ih (fun q hq => h q (List.mem_cons_of_mem p hq))

theorem sortPairs_map_unit (l : List ℚ) :
    sortPairs (l.map (fun v => (v, (1 : ℚ)))) =
      (sortValues l).map (fun v => (v, (1 : ℚ))) := by
  have hperm : List.Perm (sortPairs (l.map (fun v => (v, (1 : ℚ)))))
      (l.map (fun v => (v, (1 : ℚ)))) :=
    List.perm_insertionSort _ _
  have hsnd : ∀ p ∈ sortPairs (l.map (fun v => (v, (1 : ℚ)))), p.2 = 1 := by
    intro p hp
    have := hperm.subset hp
    simp only [List.mem_map] at this
    obtain ⟨v, _, rfl⟩ := this
    rfl
  have h1 : List.Perm ((sortPairs (l.map (fun v => (v, (1 : ℚ))))).map Prod.fst) l := by
    have := hperm.map Prod.fst
    rw [List.map_map] at this
    have h0 : (Prod.fst ∘ fun v : ℚ => (v, (1 : ℚ))) = fun v : ℚ => v := rfl
    rw [h0, List.map_id'] at this
    exact this
  have h2 : List.Sorted (· ≤ ·) ((sortPairs (l.map (fun v => (v, (1 : ℚ))))).map Prod.fst) := by
    have hs : List.Sorted (fun a b : ℚ × ℚ => a.1 ≤ b.1)
        (sortPairs (l.map (fun v => (v, (1 : ℚ))))) :=
      List.sorted_insertionSort _ _
    exact List.Pairwise.map Prod.fst (fun a b hab => hab) hs
  have h3 : List.Sorted (· ≤ ·) (sortValues l) := List.sorted_insertionSort _ _
  have h4 : (sortPairs (l.map (fun v => (v, (1 : ℚ))))).map Prod.fst = sortValues l :=
    List.eq_of_perm_of_sorted (h1.trans (List.perm_insertionSort _ l).symm) h2 h3
  rw [← map_fst_map_unit (sortPairs (l.map (fun v => (v, (1 : ℚ))))) hsnd, h4]

theorem wmLoop_unit_aux (l : List ℚ) :
    ∀ (d j : ℕ), j + d + 1 = (l.length + 1) / 2 →
      wmLoop ((l.length : ℚ) / 2) ((l.drop j).map (fun v => (v, (1 : ℚ)))) (j : ℚ) =
        l[(l.length + 1) / 2 - 1]? := by
  intro d
  induction d with
  | zero =>
    intro j hj
    have hjlt : j < l.length := by omega
    rw [List.drop_eq_getElem_cons hjlt, List.map_cons]
    simp only [wmLoop]
    rw [if_pos]
    · rw [List.getElem?_eq_getElem (by omega : (l.length + 1) / 2 - 1 < l.length)]
      have hjm : j = (l.length + 1) / 2 - 1 := by omega
      subst hjm
      rfl
    · have hc : ((j : ℚ) + 1) * 2 = ((2 * j + 2 : ℕ) : ℚ) := by push_cast; ring
      rw [div_le_iff (by norm_num : (0 : ℚ) < 2), hc, Nat.cast_le]
      omega
  | succ d ih =>
    intro j hj
    have hjlt : j < l.length := by omega
    rw [List.drop_eq_getElem_cons hjlt, List.map_cons]
    simp only [wmLoop]
    rw [if_neg]
    · have := ih (j + 1) (by omega)
      push_cast at this
      exact this
    · have hc : ((j : ℚ) + 1) * 2 = ((2 * j + 2 : ℕ) : ℚ) := by push_cast; ring
      rw [div_le_iff (by norm_num : (0 : ℚ) < 2), hc, Nat.cast_le]
      omega

theorem weighted_median_unit (values : List ℚ) (hne : values ≠ []) :
    weighted_median values (List.replicate values.length (1 : ℚ)) =
      (sortValues values)[(values.length + 1) / 2 - 1]? := by
  have hpos : 0 < values.length := List.length_pos.mpr hne
  unfold weighted_median
  rw [if_neg (by simp [hne])]
  rw [zip_replicate_one, sortPairs_map_unit]
  unfold wmTail
  have hlen : (sortValues values).length = values.length :=
    (List.perm_insertionSort _ _).length_eq
  have hsum : (((sortValues values).map (fun v => (v, (1 : ℚ)))).map Prod.snd).sum =
      ((values.length : ℚ)) := by
    rw [List.map_map]
    have h0 : (Prod.snd ∘ fun v : ℚ => (v, (1 : ℚ))) = fun _ : ℚ => (1 : ℚ) := rfl
    rw [h0, List.map_const', List.sum_replicate, hlen]
    simp
  rw [hsum]
  rw [if_neg (not_le.mpr (by exact_mod_cast hpos))]
  have hloop := wmLoop_unit_aux (sortValues values) ((values.length + 1) / 2 - 1) 0
    (by omega)
  rw [hlen] at hloop
  simp only [List.drop_zero, Nat.cast_zero] at hloop
  rw [hloop]
  rw [List.getElem?_eq_getElem (by omega : (values.length + 1) / 2 - 1 < (sortValues values).length)]

theorem weighted_median_single (v w : ℚ) (hw : 0 < w) :
    weighted_median [v] [w] = some v := by
  unfold weighted_median
  rw [if_neg (by simp)]
  have hsp : sortPairs ([v].zip [w]) = [(v, w)] := rfl
  rw [hsp]
  unfold wmTail
  simp only [List.map_cons, List.map_nil, List.sum_cons, List.sum_nil, add_zero]
  rw [if_neg (not_le.mpr hw)]
  simp only [wmLoop]
  rw [if_pos (by linarith)]

/-- Claim C4 (amended).  For unit weights the weighted median is the *lower*
median: the `⌈n/2⌉`-th smallest value.  For an odd number of pairs this equals
the ordinary median; for an even number the code returns the lower of the two
middle values rather than their mean (see the counterexample).  For a single
pair with positive weight the result is that pair's value. -/
theorem claim_C4_weighted_median (values : List ℚ) (hne : values ≠ []) :
    weighted_median values (List.replicate values.length 1) =
        (sortValues values)[(values.length + 1) / 2 - 1]? ∧
      (values.length % 2 = 1 →
        weighted_median values (List.replicate values.length 1) = ordinaryMedian values) ∧
      (∀ v w : ℚ, 0 < w → weighted_median [v] [w] = some v) := by
  refine ⟨weighted_median_unit values hne, ?_, fun v w hw => weighted_median_single v w hw⟩
  intro hodd
  rw [weighted_median_unit values hne]
  unfold ordinaryMedian
  rw [if_neg (by simp [hne]), if_pos hodd]
  congr 1
  omega

theorem claim_C4_weighted_median_witness :
    weighted_median [3, 1, 2] (List.replicate 3 1) =
      (sortValues [3, 1, 2])[(3 + 1) / 2 - 1]? :=
  (claim_C4_weighted_median [3, 1, 2] (by simp)).1

/-- Claim C4, counterexample to the claim as stated.  With four pairs all of
weight 1, the weighted median of `[1, 2, 3, 4]` is `2` (the accumulation stops
as soon as `running >= total/2`, i.e. at the second of four unit weights),
while the ordinary median is `(2 + 3) / 2 = 5/2`. -/
theorem claim_C4_counterexample :
    weighted_median [1, 2, 3, 4] (List.replicate 4 1) = some 2 ∧
      ordinaryMedian [1, 2, 3, 4] = some (5 / 2) ∧
      weighted_median [1, 2, 3, 4] (List.replicate 4 1) ≠ ordinaryMedian [1, 2, 3, 4] := by
  have h1 : weighted_median [1, 2, 3, 4] (List.replicate 4 1) = some 2 := by
    unfold weighted_median
    rw [if_neg (by simp)]
    norm_num [wmTail, sortPairs, List.insertionSort, List.orderedInsert, wmLoop,
      List.zip_cons_cons, List.zip_nil_right, List.replicate]
  have h2 : ordinaryMedian [1, 2, 3, 4] = some (5 / 2) := by
    norm_num [ordinaryMedian, sortValues, List.insertionSort, List.orderedInsert]
  refine ⟨h1, h2, ?_⟩
  rw [h1, h2]
  intro h
  have := Option.some.inj h
  norm_num at this

/-- Decimal value of a digit string (most significant first). -/
def natVal (cs : List Char) : ℕ := cs.foldl (fun n c => n * 10 + (c.toNat - 48)) 0

/-- The whitespace characters stripped by Python's `str.strip()`. -/
def isPySpace (c : Char) : Bool :=
  (c == ' ') || (c == '\t') || (c == '\n') || (c == '\r') || (c == '\x0b') || (c == '\x0c')

/-- Python's `str.strip()` on a character list. -/
def pyStrip (cs : List Char) : List Char :=
  ((cs.dropWhile isPySpace).reverse.dropWhile isPySpace).reverse

/-- Magnitude part of Python `float(str)`: digits with at most one decimal
point and at least one digit.  (Python's `float` also accepts
exponent/infinity/nan forms that the census payloads never use; on the
decimal forms actually exchanged the two agree.) -/
def pyFloatMag (cs : List Char) : Option ℚ :=
  let ip := cs.takeWhile (fun c => c != '.')
  match cs.dropWhile (fun c => c != '.') with
  | [] => if ip ≠ [] ∧ ip.all Char.isDigit then some ((natVal ip : ℕ) : ℚ) else none
  | _ :: frac =>
    if (ip ≠ [] ∨ frac ≠ []) ∧ ip.all Char.isDigit ∧ frac.all Char.isDigit then
      some (((natVal ip : ℕ) : ℚ) + ((natVal frac : ℕ) : ℚ) / (10 : ℚ) ^ frac.length)
    else none

/-- Python `float(str)` after stripping: optional sign then magnitude. -/
def pyFloat (cs : List Char) : Option ℚ :=
  match cs with
  | '-' :: r => (pyFloatMag r).map (fun q => -q)
  | '+' :: r => pyFloatMag r
  | r => pyFloatMag r

/-- Function `parse_float` (source lines 98–109): `None` stays `None`; strip; the
sentinels `""` and `"."` become `None`; otherwise `float(...)`, with a
`ValueError` degrading to `None`.  (The `isinstance` branch for numeric JSON
values never fires on the census/FRED payloads, which carry strings.) -/
def parse_float : Option String → Option ℚ
  | none => none
  | some s =>
    match pyStrip s.data with
    | [] => none
    | ['.'] => none
    | t => pyFloat t

/-- Python `int(str)`: strip, optional sign, nonempty digits; `none` models
the `ValueError` raised otherwise. -/
def pyInt (s : String) : Option Int :=
  match pyStrip s.data with
  | '-' :: r => if r ≠ [] ∧ r.all Char.isDigit then some (-(natVal r : Int)) else none
  | '+' :: r => if r ≠ [] ∧ r.all Char.isDigit then some ((natVal r : Int)) else none
  | r => if r ≠ [] ∧ r.all Char.isDigit then some ((natVal r : Int)) else none

/-- Whether `pat` matches at the head of `text`. -/
def matchAt : List Char → List Char → Bool
  | [], _ => true
  | _ :: _, [] => false
  | p :: ps, c :: cs => p == c && matchAt ps cs

/-- Scan every suffix of `text` for a head match of `pat`. -/
def goContains (pat : List Char) : List Char → Bool
  | [] => matchAt pat []
  | c :: rest => matchAt pat (c :: rest) || goContains pat rest

/-- Python's `pat in text` substring test. -/
def pyContains (text pat : String) : Bool := goContains pat.data text.data

/-- Model of `re.search` on the pattern of source line 239: the pattern is a
*raw* string, so `\\` is an escaped literal backslash and `d{2}` repeats the
letter `d`; the regex therefore matches only the literal five-character
substrings `19\dd` and `20\dd` (leftmost occurrence, `19\dd` tried first at
each position), never a four-digit year. -/
def regexYearSearch : List Char → Option String
  | [] => none
  | c :: rest =>
    if matchAt ("19\\dd".data) (c :: rest) then some "19\\dd"
    else if matchAt ("20\\dd".data) (c :: rest) then some "20\\dd"
    else regexYearSearch rest

/-- Function `extract_year_from_text` (source lines 238–242): search the (buggy, see
`regexYearSearch`) pattern; no match returns `None`; a match is fed to
`int()`, whose `ValueError` (the match always contains a backslash and two
letters) propagates to the caller. -/
def extract_year_from_text (text : String) : Except Unit (Option Int) :=
  match regexYearSearch text.data with
  | none => .ok none
  | some m =>
    match pyInt m with
    | some n => .ok (some n)
    | none => .error ()

/-- Python `dict.__setitem__` on an insertion-ordered association list:
an existing key keeps its position and gets the new value; a new key is
appended. -/
def dictSet {α : Type} (d : List (Int × α)) (k : Int) (v : α) : List (Int × α) :=
  if d.any (fun p => decide (p.1 = k)) then
    d.map (fun p => if p.1 = k then (k, v) else p)
  else d ++ [(k, v)]

/-- Python `dict.get` on an insertion-ordered association list. -/
def dictGet {α : Type} (d : List (Int × α)) (k : Int) : Option α :=
  (d.find? (fun p => decide (p.1 = k))).map Prod.snd

/-- Python `range(a, b + 1)` as a list of `Int` (ascending). -/
def yearsList (a b : Int) : List Int :=
  (List.range (b + 1 - a).toNat).map (fun i : Nat => a + (i : Int))

/-- Lookup in `\x7bname: i for i, name in enumerate(header)\x7d`: a Python dict
comprehension keeps the *last* index for a duplicated name. -/
def lastIdxOf (header : List String) (name : String) : Option Nat :=
  ((header.enum.filter (fun p => decide (p.2 = name))).getLast?).map Prod.fst

/-- Python list indexing `row[i]`: `IndexError` when out of range. -/
def rowAt (row : List String) (i : Nat) : Except Unit String :=
  match row[i]? with
  | some s => .ok s
  | none => .error ()

/-- Source lines 228–229: parse the `HTOTVAL` / `HSUP_WGT` cells of one CPS
row; a column absent from the header yields `None`, a row too short for the
column index raises. -/
def rowVW (hH hW : Option Nat) (row : List String) :
    Except Unit (Option ℚ × Option ℚ) := do
  let v : Option ℚ ←
    match hH with
    | some i => do
        let s ← rowAt row i
        pure (parse_float (some s))
    | none => pure none
  let w : Option ℚ ←
    match hW with
    | some i => do
        let s ← rowAt row i
        pure (parse_float (some s))
    | none => pure none
  pure (v, w)

/-- Source lines 230–233: a row whose value or weight is `None`, or whose
weight is non-positive, is skipped; otherwise its pair is kept. -/
def cpsKeep (vw : Option ℚ × Option ℚ) (tail : List (ℚ × ℚ)) : List (ℚ × ℚ) :=
  match vw with
  | (some v, some w) => if w ≤ 0 then tail else (v, w) :: tail
  | _ => tail

/-- The row loop of `fetch_cps_asec_median_household_income` (source lines
227–233).  The source appends to two parallel `values`/`weights` lists in
lockstep; the pair list carries the same data. -/
def cpsRowsOf (hH hW : Option Nat) : List (List String) → Except Unit (List (ℚ × ℚ))
  | [] => .ok []
  | row :: rest => do
    let vw ← rowVW hH hW row
    let tail ← cpsRowsOf hH hW rest
    pure (cpsKeep vw tail)

/-- Source line 234: the per-year estimate `weighted_median(values, weights)`. -/
def cpsEstimateOf (hH hW : Option Nat) (rows : List (List String)) :
    Except Unit (Option ℚ) :=
  (cpsRowsOf hH hW rows).map
    (fun prs => weighted_median (prs.map Prod.fst) (prs.map Prod.snd))

/-- One year of the CPS fetch after a successful request (source lines
221–234): `none` models `if not data or len(data) < 2: continue`; otherwise
the header indexes are computed and the rows processed. -/
def cpsYear (data : List (List String)) : Option (Except Unit (Option ℚ)) :=
  match data with
  | header :: rows =>
    if data.length < 2 then none
    else some (cpsEstimateOf (lastIdxOf header "HTOTVAL") (lastIdxOf header "HSUP_WGT") rows)
  | [] => none

/-- Request + per-year processing outcome for one CPS year: `none` when the
year is skipped (request exception or short payload). -/
def cpsYearOutcome (resp : Int → Option (List (List String))) (y : Int) :
    Option (Except Unit (Option ℚ)) :=
  match resp y with
  | none => none
  | some data => cpsYear data

/-- The year loop of `fetch_cps_asec_median_household_income` (source lines
210–235): a request exception `continue`s; a short payload `continue`s;
otherwise `out[year] = weighted_median(...)`. -/
def fetch_cps_go (resp : Int → Option (List (List String))) :
    List Int → List (Int × Option ℚ) → Except Unit (List (Int × Option ℚ))
  | [], out => .ok out
  | y :: rest, out =>
    match cpsYearOutcome resp y with
    | none => fetch_cps_go resp rest out
    | some est => do
        let v ← est
        fetch_cps_go resp rest (dictSet out y v)

/-- Function `fetch_cps_asec_median_household_income` (source lines 206–235), with the
HTTP layer replaced by a response oracle (`none` = request exception). -/
def fetch_cps_asec_median_household_income
    (resp : Int → Option (List (List String))) (start_year end_year : Int) :
    Except Unit (List (Int × Option ℚ)) :=
  fetch_cps_go resp (yearsList start_year end_year) []

/-- Python `dict(zip(header, row)).get(k)`: `zip` truncates to the shorter list;
duplicate header names keep the *last* paired value. -/
def pyZipDictGet (header row : List String) (k : String) : Option String :=
  (((header.zip row).filter (fun p => decide (p.1 = k))).getLast?).map Prod.snd

/-- The year loop of `fetch_census_acs1_us` (source lines 167–187): a request
exception *breaks* the loop (source comment: "ACS1 is not available for all
years; stop when we hit a non-existent year"); a payload with fewer than two
rows skips the year; otherwise
`out[year] = {k: parse_float(values.get(k)) for k in series_ids}`. -/
def acs1Go (resp : Int → Option (List (List String))) (sids : List String) :
    List Int → List (Int × List (String × Option ℚ)) →
      List (Int × List (String × Option ℚ))
  | [], out => out
  | y :: rest, out =>
    match resp y with
    | none => out
    | some data =>
      match data with
      | header :: row :: _ =>
        acs1Go resp sids rest
          (dictSet out y (sids.map (fun k => (k, parse_float (pyZipDictGet header row k)))))
      | _ => acs1Go resp sids rest out

/-- Function `fetch_census_acs1_us` (source lines 167–187), with the HTTP layer
replaced by a response oracle (`none` = request exception). -/
def fetch_census_acs1_us (resp : Int → Option (List (List String)))
    (sids : List String) (start_year end_year : Int) :
    List (Int × List (String × Option ℚ)) :=
  acs1Go resp sids (yearsList start_year end_year) []

theorem except_bind_ok {α β : Type} (a : α) (f : α → Except Unit β) :
    ((Except.ok a : Except Unit α) >>= f) = f a := rfl

instance {α β : Type} [DecidableEq α] [DecidableEq β] : DecidableEq (Except α β) :=
  fun a b =>
    match a, b with
    | .ok x, .ok y => decidable_of_iff (x = y) (by simp)
    | .error x, .error y => decidable_of_iff (x = y) (by simp)
    | .ok _, .error _ => isFalse (fun h => Except.noConfusion h)
    | .error _, .ok _ => isFalse (fun h => Except.noConfusion h)

theorem except_bind_pure {α : Type} (x : Except Unit α) :
    (x >>= fun a => (pure a : Except Unit α)) = x := by
  cases x <;> rfl

theorem cpsKeep_excluded {v w : Option ℚ}
    (hex : v = none ∨ w = none ∨ ∃ x, w = some x ∧ x ≤ 0) :
    ∀ tail, cpsKeep (v, w) tail = tail := by
  intro tail
  rcases hex with rfl | rfl | ⟨x, rfl, hx⟩
  · cases w <;> rfl
  · cases v <;> rfl
  · cases v
    · rfl
    · show (if x ≤ 0 then tail else _) = tail
      rw [if_pos hx]

theorem cpsRowsOf_excluded (hH hW : Option Nat) (row : List String) (v w : Option ℚ)
    (hvw : rowVW hH hW row = .ok (v, w))
    (hex : v = none ∨ w = none ∨ ∃ x, w = some x ∧ x ≤ 0) :
    ∀ pre post, cpsRowsOf hH hW (pre ++ row :: post) = cpsRowsOf hH hW (pre ++ post) := by
  intro pre
  induction pre with
  | nil =>
    intro post
    simp only [List.nil_append]
    show (do
      let vw ← rowVW hH hW row
      let tail ← cpsRowsOf hH hW post
      pure (cpsKeep vw tail)) = cpsRowsOf hH hW post
    rw [hvw, except_bind_ok]
    simp only [cpsKeep_excluded hex]
    exact except_bind_pure _
  | cons p pre ih =>
    intro post
    simp only [List.cons_append]
    show (do
      let vw ← rowVW hH hW p
      let tail ← cpsRowsOf hH hW (pre ++ row :: post)
      pure (cpsKeep vw tail)) = (do
      let vw ← rowVW hH hW p
      let tail ← cpsRowsOf hH hW (pre ++ post)
      pure (cpsKeep vw tail))
    rw [ih post]

theorem weighted_median_nonpos_total (values weights : List ℚ)
    (h : ((values.zip weights).map Prod.snd).sum ≤ 0) :
    weighted_median values weights = none := by
  unfold weighted_median
  by_cases hc : values = [] ∨ weights = []
  · rw [if_pos hc]
  · rw [if_neg hc]
    unfold wmTail
    have hperm : List.Perm (sortPairs (values.zip weights)) (values.zip weights) :=
      List.perm_insertionSort _ _
    have hsum : ((sortPairs (values.zip weights)).map Prod.snd).sum =
        ((values.zip weights).map Prod.snd).sum := (hperm.map Prod.snd).sum_eq
    rw [if_pos (by rw [hsum]; exact h)]

/-- Claim C8.  (1) A row whose parsed value is absent, or whose parsed weight
is absent or non-positive, is excluded before sorting: inserting such a row
anywhere in the microdata leaves the income estimate exactly unchanged.
(2) When every row is excluded, the estimate is `None` rather than zero or
an exception.  (3) Inside `weighted_median`, a non-positive total weight
yields `None`. -/
theorem claim_C8_exclusion :
    (∀ (hH hW : Option Nat) (pre post : List (List String)) (row : List String)
        (v w : Option ℚ),
        rowVW hH hW row = .ok (v, w) →
        (v = none ∨ w = none ∨ ∃ x, w = some x ∧ x ≤ 0) →
        cpsEstimateOf hH hW (pre ++ row :: post) = cpsEstimateOf hH hW (pre ++ post)) ∧
      (∀ (hH hW : Option Nat) (rows : List (List String)),
        cpsRowsOf hH hW rows = .ok [] → cpsEstimateOf hH hW rows = .ok none) ∧
      (∀ values weights : List ℚ,
        ((values.zip weights).map Prod.snd).sum ≤ 0 →
        weighted_median values weights = none) := by
  refine ⟨?_, ?_, weighted_median_nonpos_total⟩
  · intro hH hW pre post row v w hvw hex
    unfold cpsEstimateOf
    rw [cpsRowsOf_excluded hH hW row v w hvw hex pre post]
  · intro hH hW rows h
    unfold cpsEstimateOf
    rw [h]
    rfl

theorem claim_C8_exclusion_witness :
    cpsEstimateOf (some 0) (some 1) [["7", "-1"], ["5", "2"]] =
      cpsEstimateOf (some 0) (some 1) [["5", "2"]] :=
  claim_C8_exclusion.1 (some 0) (some 1) [] [["5", "2"]] ["7", "-1"] (some 7) (some (-1))
    rfl (Or.inr (Or.inr ⟨-1, rfl, by norm_num⟩))

theorem yearsList_nodup (a b : Int) : (yearsList a b).Nodup := by
  unfold yearsList
  refine List.Nodup.map ?_ (List.nodup_range _)
  intro i j hij
  simp only at hij
  omega

theorem dictSet_append {α : Type} (d : List (Int × α)) (k : Int) (v : α)
    (h : d.any (fun p => decide (p.1 = k)) = false) :
    dictSet d k v = d ++ [(k, v)] := by
  unfold dictSet
  rw [if_neg (by simp [h])]

/-- The per-year entry the ACS1 loop produces from a successful response. -/
def acs1Entry (resp : Int → Option (List (List String))) (sids : List String)
    (y : Int) : Option (Int × List (String × Option ℚ)) :=
  match resp y with
  | some (header :: row :: _) =>
    some (y, sids.map (fun k => (k, parse_float (pyZipDictGet header row k))))
  | _ => none

theorem acs1Go_eq (resp : Int → Option (List (List String))) (sids : List String) :
    ∀ (ys : List Int) (out : List (Int × List (String × Option ℚ))),
      ys.Nodup →
      (∀ y ∈ ys, out.any (fun p => decide (p.1 = y)) = false) →
      acs1Go resp sids ys out =
        out ++ (ys.takeWhile (fun y => (resp y).isSome)).filterMap (acs1Entry resp sids) := by
  intro ys
  induction ys with
  | nil => intro out _ _; simp [acs1Go]
  | cons y rest ih =>
    intro out hnd hkeys
    cases hresp : resp y with
    | none =>
      simp only [acs1Go, hresp]
      rw [List.takeWhile_cons]
      simp [hresp]
    | some data =>
      rcases data with _ | ⟨header, _ | ⟨row, t⟩⟩
      · simp only [acs1Go, hresp]
        rw [List.takeWhile_cons]
        simp only [hresp, Option.isSome_some, if_true]
        rw [List.filterMap_cons_none (by simp [acs1Entry, hresp])]
        exact ih out hnd.of_cons (fun z hz => hkeys z (List.mem_cons_of_mem y hz))
      · simp only [acs1Go, hresp]
        rw [List.takeWhile_cons]
        simp only [hresp, Option.isSome_some, if_true]
        rw [List.filterMap_cons_none (by simp [acs1Entry, hresp])]
        exact ih out hnd.of_cons (fun z hz => hkeys z (List.mem_cons_of_mem y hz))
      · simp only [acs1Go, hresp]
        rw [List.takeWhile_cons]
        simp only [hresp, Option.isSome_some, if_true]
        rw [List.filterMap_cons_some (show acs1Entry resp sids y =
          some (y, sids.map (fun k => (k, parse_float (pyZipDictGet header row k))))
          by simp [acs1Entry, hresp])]
        rw [dictSet_append out y _ (hkeys y (List.mem_cons_self y rest))]
        rw [ih (out ++ [(y, _)]) hnd.of_cons ?_]
        · rw [List.append_assoc]
          rfl
        · intro z hz
          have hy : y ≠ z := fun h => (List.nodup_cons.mp hnd).1 (h ▸ hz)
          simp [List.any_append, hkeys z (List.mem_cons_of_mem y hz), hy]

/-- The per-year entry the CPS loop records for a non-skipped year. -/
def cpsEntry (resp : Int → Option (List (List String))) (y : Int) :
    Option (Int × Option ℚ) :=
  match cpsYearOutcome resp y with
  | some (.ok v) => some (y, v)
  | _ => none

theorem fetch_cps_go_eq (resp : Int → Option (List (List String))) :
    ∀ (ys : List Int) (out : List (Int × Option ℚ)),
      ys.Nodup →
      (∀ y ∈ ys, out.any (fun p => decide (p.1 = y)) = false) →
      (∀ y ∈ ys, cpsYearOutcome resp y ≠ some (.error ())) →
      fetch_cps_go resp ys out = .ok (out ++ ys.filterMap (cpsEntry resp)) := by
  intro ys
  induction ys with
  | nil => intro out _ _ _; simp [fetch_cps_go]
  | cons y rest ih =>
    intro out hnd hkeys hwf
    cases hout : cpsYearOutcome resp y with
    | none =>
      simp only [fetch_cps_go, hout]
      rw [List.filterMap_cons_none (by simp [cpsEntry, hout])]
      exact ih out hnd.of_cons (fun z hz => hkeys z (List.mem_cons_of_mem y hz))
        (fun z hz => hwf z (List.mem_cons_of_mem y hz))
    | some est =>
      cases est with
      | error e =>
        cases e
        exact absurd hout (hwf y (List.mem_cons_self y rest))
      | ok v =>
        simp only [fetch_cps_go, hout]
        rw [except_bind_ok]
        rw [List.filterMap_cons_some (show cpsEntry resp y = some (y, v)
          by simp [cpsEntry, hout])]
        rw [dictSet_append out y v (hkeys y (List.mem_cons_self y rest))]
        rw [ih (out ++ [(y, v)]) hnd.of_cons ?_ (fun z hz => hwf z (List.mem_cons_of_mem y hz))]
        · rw [List.append_assoc]
          rfl
        · intro z hz
          have hy : y ≠ z := fun h => (List.nodup_cons.mp hnd).1 (h ▸ hz)
          simp [List.any_append, hkeys z (List.mem_cons_of_mem y hz), hy]

/-- Claim C5 (amended).  For the CPS ASEC fetch the claim holds: a failed or
empty/short response for one year contributes nothing and the loop continues,
so the result is exactly the per-year outcomes of the non-skipped years, in
order.  For the ACS1 fetch the claim fails as stated: an empty/short response
skips just that year and continues, but a request *error* breaks the loop, so
no later year of the range is collected — the result covers only the prefix
of years before the first failing request. -/
theorem claim_C5_per_year_isolation :
    (∀ (resp : Int → Option (List (List String))) (sids : List String) (s e : Int),
      fetch_census_acs1_us resp sids s e =
        ((yearsList s e).takeWhile (fun y => (resp y).isSome)).filterMap
          (acs1Entry resp sids)) ∧
      (∀ (resp : Int → Option (List (List String))) (s e : Int),
        (∀ y ∈ yearsList s e, cpsYearOutcome resp y ≠ some (.error ())) →
        fetch_cps_asec_median_household_income resp s e =
          .ok ((yearsList s e).filterMap (cpsEntry resp))) := by
  constructor
  · intro resp sids s e
    unfold fetch_census_acs1_us
    rw [acs1Go_eq resp sids (yearsList s e) [] (yearsList_nodup s e) (by simp)]
    rfl
  · intro resp s e hwf
    unfold fetch_cps_asec_median_household_income
    rw [fetch_cps_go_eq resp (yearsList s e) [] (yearsList_nodup s e) (by simp) hwf]
    rfl

theorem claim_C5_per_year_isolation_witness :
    fetch_cps_asec_median_household_income
        (fun y => if y = 1993 then some [["HTOTVAL", "HSUP_WGT"], ["30000", "1"]] else none)
        1992 1993 =
      .ok ((yearsList 1992 1993).filterMap
        (cpsEntry (fun y =>
          if y = 1993 then some [["HTOTVAL", "HSUP_WGT"], ["30000", "1"]] else none))) :=
  claim_C5_per_year_isolation.2
    (fun y => if y = 1993 then some [["HTOTVAL", "HSUP_WGT"], ["30000", "1"]] else none)
    1992 1993 (by decide)

/-- Claim C5, counterexample to the claim as stated.  Over the range 2005–2006,
a request error for 2005 makes the ACS1 fetch return nothing at all — the
perfectly valid 2006 response is never collected (first conjunct) — even
though the same 2006 response on its own parses fine (second conjunct). -/
theorem claim_C5_counterexample :
    fetch_census_acs1_us
        (fun y => if y = 2006 then some [["NAME", "B01001_001E"], ["US", "300000000"]] else none)
        ["B01001_001E"] 2005 2006 = [] ∧
      fetch_census_acs1_us
          (fun y => if y = 2006 then some [["NAME", "B01001_001E"], ["US", "300000000"]] else none)
          ["B01001_001E"] 2006 2006 =
        [(2006, [("B01001_001E", some 300000000)])] :=
  ⟨rfl, rfl⟩

/-- Table `FRED_SERIES` (source lines 29–34): (id, key, name). -/
def FRED_SERIES : List (String × String × String) :=
  [("UNRATE", "unemployment_rate", "Unemployment Rate"),
   ("CPIAUCSL", "cpi_all_items", "Consumer Price Index for All Urban Consumers: All Items"),
   ("FEDFUNDS", "fed_funds_rate", "Effective Federal Funds Rate"),
   ("T10Y2Y", "yield_spread_10y_2y", "10-Year Treasury Constant Maturity Minus 2-Year")]

/-- Table `BLS_SERIES` (source lines 36–40). -/
def BLS_SERIES : List (String × String × String) :=
  [("LNS14000000", "unemployment_rate_bls", "Unemployment Rate"),
   ("CES0000000001", "total_nonfarm_payrolls", "All Employees, Total Nonfarm"),
   ("LNS11300000", "labor_force_participation_rate", "Labor Force Participation Rate")]

/-- Table `CENSUS_VARS` (source lines 42–45). -/
def CENSUS_VARS : List (String × String × String) :=
  [("B01001_001E", "total_population", "Total Population"),
   ("B19013_001E", "median_household_income", "Median Household Income")]

/-- One output document of `main` (source lines 402–418). -/
structure MonthlyRecord where
  date : PyDate
  fred : List (String × Option ℚ)
  bls : List (String × Option ℚ)
  census_total_population : Option ℚ
  census_median_household_income : Option ℚ
deriving DecidableEq

/-- Source lines 407–411: population prefers the PEP vintage estimate and
falls back to the ACS1 aggregate
(`pep_population.get(y) if ... is not None else acs_data.get(y, {}).get("B01001_001E")`). -/
def censusPopulationFor (pep : Int → Option ℚ) (acs : Int → String → Option ℚ)
    (y : Int) : Option ℚ :=
  match pep y with
  | some v => some v
  | none => acs y "B01001_001E"

/-- Source lines 412–416: income is the ACS1 aggregate for years ≥ 2005 and
the CPS weighted-median estimate otherwise
(`acs_data.get(y, {}).get("B19013_001E") if y >= 2005 else cps_income.get(y)`). -/
def censusIncomeFor (acs : Int → String → Option ℚ) (cps : Int → Option ℚ)
    (y : Int) : Option ℚ :=
  if 2005 ≤ y then acs y "B19013_001E" else cps y

/-- The document built for one month `m` (source lines 401–418).  In the
source the year is recovered from the ISO date string as `int(m[:4])`, which
equals the month's year (`date.isoformat` zero-pads the year to four
digits), so the census lookups take `m.year`.  Fetched dictionaries are
modelled as lookup functions (absent key and stored `None` both read back as
`none`, exactly as `.get` behaves). -/
def buildDoc (fredData blsData : String → PyDate → Option ℚ)
    (acsData : Int → String → Option ℚ) (cpsIncome pepPopulation : Int → Option ℚ)
    (m : PyDate) : MonthlyRecord :=
  { date := m
    fred := FRED_SERIES.map (fun s => (s.2.1, fredData s.1 m))
    bls := BLS_SERIES.map (fun s => (s.2.1, blsData s.1 m))
    census_total_population := censusPopulationFor pepPopulation acsData m.year
    census_median_household_income := censusIncomeFor acsData cpsIncome m.year }

/-- The assembly loop of `main` (source lines 399–419): one document per
month of `month_range(START_DATE, END_DATE)`, in order. -/
def assembleDocs (s e : PyDate) (fredData blsData : String → PyDate → Option ℚ)
    (acsData : Int → String → Option ℚ) (cpsIncome pepPopulation : Int → Option ℚ) :
    List MonthlyRecord :=
  (month_range s e).map (buildDoc fredData blsData acsData cpsIncome pepPopulation)

theorem assembleDocs_dates (s e : PyDate) (fredData blsData : String → PyDate → Option ℚ)
    (acsData : Int → String → Option ℚ) (cpsIncome pepPopulation : Int → Option ℚ) :
    (assembleDocs s e fredData blsData acsData cpsIncome pepPopulation).map
      (fun r => r.date) = month_range s e := by
  unfold assembleDocs
  rw [List.map_map]
  have h0 : ((fun r : MonthlyRecord => r.date) ∘
      buildDoc fredData blsData acsData cpsIncome pepPopulation) = fun m : PyDate => m := rfl
  rw [h0, List.map_id']

/-- Claim C3.  For every `start ≤ end` and every combination of source data
(including entirely missing data), the assembled output has exactly one
record per calendar month of `[start, end]`: the count is the number of
months, consecutive records are consecutive months (hence strictly
ascending, no duplicates), every record's date is a first-of-month inside
the range, and every month of the range is hit. -/
theorem claim_C3_axis_invariant (s e : PyDate) (h : dateLe s e)
    (fredData blsData : String → PyDate → Option ℚ)
    (acsData : Int → String → Option ℚ) (cpsIncome pepPopulation : Int → Option ℚ) :
    (assembleDocs s e fredData blsData acsData cpsIncome pepPopulation).length =
        (dateIdx e + 1 - dateIdx s).toNat ∧
      List.Chain' (fun a b => dateIdx b.date = dateIdx a.date + 1)
        (assembleDocs s e fredData blsData acsData cpsIncome pepPopulation) ∧
      List.Chain' (fun a b => dateLt a.date b.date)
        (assembleDocs s e fredData blsData acsData cpsIncome pepPopulation) ∧
      (∀ r ∈ assembleDocs s e fredData blsData acsData cpsIncome pepPopulation,
        r.date.day = 1 ∧ dateIdx s ≤ dateIdx r.date ∧ dateIdx r.date ≤ dateIdx e) ∧
      (∀ n : Int, dateIdx s ≤ n → n ≤ dateIdx e →
        ∃ r ∈ assembleDocs s e fredData blsData acsData cpsIncome pepPopulation,
          dateIdx r.date = n) := by
  have hdates := assembleDocs_dates s e fredData blsData acsData cpsIncome pepPopulation
  refine ⟨?_, ?_, ?_, ?_, ?_⟩
  · have := congrArg List.length hdates
    rw [List.length_map, month_range_length] at this
    exact this
  · have hc := month_range_chain s e
    rw [← hdates, List.chain'_map] at hc
    exact hc
  · have hc := month_range_chain_lt s e
    rw [← hdates, List.chain'_map] at hc
    exact hc
  · intro r hr
    have : r.date ∈ month_range s e := by
      rw [← hdates]
      exact List.mem_map_of_mem _ hr
    have hm := (month_range_mem_iff s e r.date).mp this
    exact ⟨hm.1, hm.2.2.1, hm.2.2.2⟩
  · intro n hlo hhi
    have hmem : monthOfIdx n ∈ month_range s e := by
      rw [month_range_mem_iff]
      refine ⟨rfl, ?_, ?_, ?_⟩
      · rw [dateIdx_monthOfIdx]
      · rw [dateIdx_monthOfIdx]; exact hlo
      · rw [dateIdx_monthOfIdx]; exact hhi
    refine ⟨buildDoc fredData blsData acsData cpsIncome pepPopulation (monthOfIdx n),
      List.mem_map_of_mem _ hmem, ?_⟩
    show dateIdx (monthOfIdx n) = n
    rw [dateIdx_monthOfIdx]

theorem claim_C3_axis_invariant_witness :
    (assembleDocs ⟨1990, 1, 1, by norm_num, by norm_num⟩ ⟨1990, 3, 1, by norm_num, by norm_num⟩
        (fun _ _ => none) (fun _ _ => none) (fun _ _ => none) (fun _ => none)
        (fun _ => none)).length =
      (dateIdx ⟨1990, 3, 1, by norm_num, by norm_num⟩ + 1 -
        dateIdx ⟨1990, 1, 1, by norm_num, by norm_num⟩).toNat :=
  (claim_C3_axis_invariant ⟨1990, 1, 1, by norm_num, by norm_num⟩
    ⟨1990, 3, 1, by norm_num, by norm_num⟩ (by decide)
    (fun _ _ => none) (fun _ _ => none) (fun _ _ => none) (fun _ => none) (fun _ => none)).1

/-- Claim C6.  In every assembled record, the census median household income is
the ACS1 aggregate of the record's year when that year is ≥ 2005 and the CPS
weighted-median estimate when it is < 2005 — the choice depends only on the
year cutoff; in particular, for a year ≥ 2005 with no ACS1 data the field is
absent even if the CPS source has data for that year. -/
theorem claim_C6_income_cutoff (s e : PyDate)
    (fredData blsData : String → PyDate → Option ℚ)
    (acsData : Int → String → Option ℚ) (cpsIncome pepPopulation : Int → Option ℚ)
    (r : MonthlyRecord)
    (hr : r ∈ assembleDocs s e fredData blsData acsData cpsIncome pepPopulation) :
    r.census_median_household_income =
        (if 2005 ≤ r.date.year then acsData r.date.year "B19013_001E"
         else cpsIncome r.date.year) ∧
      (2005 ≤ r.date.year → acsData r.date.year "B19013_001E" = none →
        r.census_median_household_income = none) := by
  unfold assembleDocs at hr
  rw [List.mem_map] at hr
  obtain ⟨m, _, rfl⟩ := hr
  constructor
  · rfl
  · intro hy hnone
    have hy' : (2005 : Int) ≤ m.year := hy
    have hnone' : acsData m.year "B19013_001E" = none := hnone
    show censusIncomeFor acsData cpsIncome m.year = none
    unfold censusIncomeFor
    rw [if_pos hy']
    exact hnone'

theorem claim_C6_income_cutoff_witness :
    (buildDoc (fun _ _ => none) (fun _ _ => none) (fun _ _ => none) (fun _ => some 42)
        (fun _ => none) ⟨2005, 1, 1, by norm_num, by norm_num⟩).census_median_household_income =
      (if 2005 ≤ (⟨2005, 1, 1, by norm_num, by norm_num⟩ : PyDate).year
       then (fun _ _ => (none : Option ℚ)) (2005 : Int) "B19013_001E"
       else (fun _ => some 42) (2005 : Int)) := by
  have h := (claim_C6_income_cutoff ⟨2005, 1, 1, by norm_num, by norm_num⟩
    ⟨2005, 1, 1, by norm_num, by norm_num⟩
    (fun _ _ => none) (fun _ _ => none) (fun _ _ => none) (fun _ => some 42) (fun _ => none)
    (buildDoc (fun _ _ => none) (fun _ _ => none) (fun _ _ => none) (fun _ => some 42)
      (fun _ => none) ⟨2005, 1, 1, by norm_num, by norm_num⟩) ?_).1
  · exact h
  · unfold assembleDocs
    apply List.mem_map_of_mem
    rw [month_range_eq]
    decide

/-- Claim C7.  Forward fill of annual census values: if the per-year resolution
yields `v` for income and `p` for population in year `Y`, and the panel range
covers all of year `Y`, then a record exists for every one of the twelve
months of `Y`, and every record of year `Y` carries exactly `some v` /
`some p` in its census fields — identical in all twelve months, with no
interpolation. -/
theorem claim_C7_forward_fill (s e : PyDate)
    (fredData blsData : String → PyDate → Option ℚ)
    (acsData : Int → String → Option ℚ) (cpsIncome pepPopulation : Int → Option ℚ)
    (Y : Int) (v p : ℚ)
    (h1 : dateIdx s ≤ Y * 12 + 1) (h2 : Y * 12 + 12 ≤ dateIdx e)
    (hv : censusIncomeFor acsData cpsIncome Y = some v)
    (hp : censusPopulationFor pepPopulation acsData Y = some p) :
    (∀ M : Int, 1 ≤ M → M ≤ 12 →
      ∃ r ∈ assembleDocs s e fredData blsData acsData cpsIncome pepPopulation,
        r.date.year = Y ∧ r.date.month = M ∧
        r.census_median_household_income = some v ∧
        r.census_total_population = some p) ∧
      (∀ r ∈ assembleDocs s e fredData blsData acsData cpsIncome pepPopulation,
        r.date.year = Y →
        r.census_median_household_income = some v ∧
        r.census_total_population = some p) := by
  constructor
  · intro M hM1 hM2
    have hym : (monthOfIdx (Y * 12 + M)).year = Y ∧ (monthOfIdx (Y * 12 + M)).month = M := by
      unfold monthOfIdx
      constructor <;> simp only <;> omega
    have hmem : monthOfIdx (Y * 12 + M) ∈ month_range s e := by
      rw [month_range_mem_iff]
      refine ⟨rfl, ?_, ?_, ?_⟩ <;> rw [dateIdx_monthOfIdx]
      · omega
      · omega
    refine ⟨buildDoc fredData blsData acsData cpsIncome pepPopulation (monthOfIdx (Y * 12 + M)),
      List.mem_map_of_mem _ hmem, hym.1, hym.2, ?_, ?_⟩
    · show censusIncomeFor acsData cpsIncome (monthOfIdx (Y * 12 + M)).year = some v
      rw [hym.1, hv]
    · show censusPopulationFor pepPopulation acsData (monthOfIdx (Y * 12 + M)).year = some p
      rw [hym.1, hp]
  · intro r hr hy
    unfold assembleDocs at hr
    rw [List.mem_map] at hr
    obtain ⟨m, _, rfl⟩ := hr
    have hmy : m.year = Y := hy
    constructor
    · show censusIncomeFor acsData cpsIncome m.year = some v
      rw [hmy, hv]
    · show censusPopulationFor pepPopulation acsData m.year = some p
      rw [hmy, hp]

theorem claim_C7_forward_fill_witness :
    ∃ r ∈ assembleDocs ⟨2010, 1, 1, by norm_num, by norm_num⟩
        ⟨2010, 12, 1, by norm_num, by norm_num⟩
        (fun _ _ => none) (fun _ _ => none)
        (fun y k => if y = 2010 ∧ k = "B19013_001E" then some 65000 else none)
        (fun _ => none) (fun y => if y = 2010 then some 309000000 else none),
      r.date.year = 2010 ∧ r.date.month = 1 ∧
      r.census_median_household_income = some 65000 ∧
      r.census_total_population = some 309000000 :=
  (claim_C7_forward_fill ⟨2010, 1, 1, by norm_num, by norm_num⟩
    ⟨2010, 12, 1, by norm_num, by norm_num⟩
    (fun _ _ => none) (fun _ _ => none)
    (fun y k => if y = 2010 ∧ k = "B19013_001E" then some 65000 else none)
    (fun _ => none) (fun y => if y = 2010 then some 309000000 else none)
    2010 65000 309000000 (by decide) (by decide) (by decide) (by decide)).1
    1 (by norm_num) (by norm_num)

/-- The five payloads `fetch_pep_us_population` may request (source lines
245–355), one per HTTP call: window A is tried with `MONTH=7` then
`MONTH=07`; windows B, C, D make one call each.  `none` models a request
exception (`except Exception: data = []` in windows, where the code
substitutes an empty list). -/
structure PepResp where
  a7 : Option (List (List String))
  a07 : Option (List (List String))
  b : Option (List (List String))
  c : Option (List (List String))
  d : Option (List (List String))

/-- One row of window A (source lines 265–273): read `YEAR` (unguarded —
a missing column raises `KeyError`), parse `TOT_POP` when present, skip
falsy years and unparsed totals, `int(year)` (may raise `ValueError`),
skip out-of-range years, and accumulate
`totals[y] = totals.get(y, 0.0) + total`. -/
def pepARow (iY iT : Option Nat) (sy ey : Int) (row : List String)
    (totals : List (Int × ℚ)) : Except Unit (List (Int × ℚ)) := do
  let year ← match iY with
    | some i => rowAt row i
    | none => .error ()
  let total : Option ℚ ←
    match iT with
    | some i => do
        let cell ← rowAt row i
        pure (parse_float (some cell))
    | none => pure none
  match total with
  | none => pure totals
  | some t =>
    if year = "" then pure totals
    else
      match pyInt year with
      | none => .error ()
      | some y =>
        if y < sy ∨ y > ey then pure totals
        else pure (dictSet totals y ((dictGet totals y).getD 0 + t))

/-- The row loop of window A. -/
def pepARows (iY iT : Option Nat) (sy ey : Int) :
    List (List String) → List (Int × ℚ) → Except Unit (List (Int × ℚ))
  | [], totals => .ok totals
  | row :: rest, totals => do
    let totals' ← pepARow iY iT sy ey row totals
    pepARows iY iT sy ey rest totals'

/-- Source line 274: `out.update({y: totals.get(y) for y in totals})` — every
accumulated year is written into `out` in insertion order. -/
def pepAUpdate (out : List (Int × Option ℚ)) (totals : List (Int × ℚ)) :
    List (Int × Option ℚ) :=
  totals.foldl (fun acc q => dictSet acc q.1 (dictGet totals q.1)) out

/-- Window A processing of one non-trivial payload (source lines 261–274). -/
def pepAProcess (data : List (List String)) (sy ey : Int)
    (out : List (Int × Option ℚ)) : Except Unit (List (Int × Option ℚ)) :=
  match data with
  | header :: rows => do
    let totals ← pepARows (lastIdxOf header "YEAR") (lastIdxOf header "TOT_POP") sy ey rows []
    pure (pepAUpdate out totals)
  | [] => .ok out

/-- Window A (source lines 249–275): guarded by
`end_year >= 1990 and start_year <= 2000`; `MONTH=7` is tried first and
`MONTH=07` only when the first payload is trivial (`data and len(data) > 1`
fails); the loop `break`s after the first processed payload. -/
def pepWindowA (a7 a07 : Option (List (List String))) (sy ey : Int)
    (out : List (Int × Option ℚ)) : Except Unit (List (Int × Option ℚ)) :=
  if 1990 ≤ ey ∧ sy ≤ 2000 then
    match a7.getD [] with
    | h1 :: r1 :: t1 => pepAProcess (h1 :: r1 :: t1) sy ey out
    | _ =>
      match a07.getD [] with
      | h2 :: r2 :: t2 => pepAProcess (h2 :: r2 :: t2) sy ey out
      | _ => .ok out
  else .ok out

/-- One row of windows B/C/D (source lines 292–301, 318–327, 344–353): the
description cell (or `""` when the column is absent), the `"July 1"`
selection, `extract_year_from_text` (whose `ValueError` propagates), the
`POP` parse, and the in-range assignment `out[year] = pop`. -/
def pepJulyRow (iDesc iPop : Option Nat) (sy ey : Int) (row : List String)
    (out : List (Int × Option ℚ)) : Except Unit (List (Int × Option ℚ)) := do
  let desc ← match iDesc with
    | some i => rowAt row i
    | none => pure ""
  if pyContains desc "July 1" = false then pure out
  else do
    let year ← extract_year_from_text desc
    let pop : Option ℚ ←
      match iPop with
      | some i => do
          let cell ← rowAt row i
          pure (parse_float (some cell))
      | none => pure none
    match year, pop with
    | some y, some pv =>
      if sy ≤ y ∧ y ≤ ey then pure (dictSet out y (some pv)) else pure out
    | _, _ => pure out

/-- The row loop of windows B/C/D. -/
def pepJulyRows (iDesc iPop : Option Nat) (sy ey : Int) :
    List (List String) → List (Int × Option ℚ) → Except Unit (List (Int × Option ℚ))
  | [], out => .ok out
  | row :: rest, out => do
    let out' ← pepJulyRow iDesc iPop sy ey row out
    pepJulyRows iDesc iPop sy ey rest out'

/-- One of the windows B (2000–2010, `DATE_DESC`), C (2010–2019,
`DATE_DESC`), D (2020–2022, `MONTHLY_DESC`): guarded by
`end_year >= lo and start_year <= hi`; a request exception leaves `data = []`;
`if data and len(data) > 1` guards the row loop. -/
def pepJulyWindow (descKey : String) (resp : Option (List (List String)))
    (lo hi : Int) (sy ey : Int) (out : List (Int × Option ℚ)) :
    Except Unit (List (Int × Option ℚ)) :=
  if lo ≤ ey ∧ sy ≤ hi then
    match resp.getD [] with
    | header :: r1 :: t1 =>
      pepJulyRows (lastIdxOf header descKey) (lastIdxOf header "POP") sy ey (r1 :: t1) out
    | _ => .ok out
  else .ok out

/-- Function `fetch_pep_us_population` (source lines 245–355): windows A, B, C, D are
applied in this order to a single accumulator dict. -/
def fetch_pep_us_population (r : PepResp) (start_year end_year : Int) :
    Except Unit (List (Int × Option ℚ)) := do
  let out1 ← pepWindowA r.a7 r.a07 start_year end_year []
  let out2 ← pepJulyWindow "DATE_DESC" r.b 2000 2010 start_year end_year out1
  let out3 ← pepJulyWindow "DATE_DESC" r.c 2010 2019 start_year end_year out2
  let out4 ← pepJulyWindow "MONTHLY_DESC" r.d 2020 2022 start_year end_year out3
  pure out4

/-- Claim C1 (code bug).  Window A yields 280M for year 2000 (summed age
bands) and window B's payload carries a row whose description contains
`"July 1"` and names the year 2000 with value 281M — by the spec's
precedence rule the reconciled map should carry 281M for 2000.  The code
instead keeps 280M: `extract_year_from_text`'s raw-string pattern
`(19|20)\\d{2}` contains a literal backslash and never matches a year, so
window B's selected row is dropped at `if year is None`.  The conjuncts
record that the B row *is* selected in the spec's sense (contains
`"July 1"`, names 2000, parses to 281M) yet the result carries window A's
280M. -/
theorem claim_C1_last_writer_wins_code_bug :
    fetch_pep_us_population
        { a7 := some [["YEAR", "MONTH", "TOT_POP", "AGE"],
                      ["2000", "7", "280000000", "0"]],
          a07 := none,
          b := some [["DATE_DESC", "POP"],
                     ["7/1/2000 population estimate (July 1, 2000)", "281000000"]],
          c := none, d := none }
        1990 2024 = .ok [(2000, some 280000000)] ∧
      pyContains "7/1/2000 population estimate (July 1, 2000)" "July 1" = true ∧
      pyContains "7/1/2000 population estimate (July 1, 2000)" "2000" = true ∧
      parse_float (some "281000000") = some 281000000 ∧
      extract_year_from_text "7/1/2000 population estimate (July 1, 2000)" = .ok none := by
  have h0 : fetch_pep_us_population
      { a7 := some [["YEAR", "MONTH", "TOT_POP", "AGE"],
                    ["2000", "7", "280000000", "0"]],
        a07 := none,
        b := some [["DATE_DESC", "POP"],
                   ["7/1/2000 population estimate (July 1, 2000)", "281000000"]],
        c := none, d := none }
      1990 2024 = .ok [(2000, some ((0 : ℚ) + 280000000))] := rfl
  refine ⟨?_, rfl, rfl, rfl, rfl⟩
  rw [h0]
  norm_num

/-- Claim C2 (code bug).  A window-B row whose description contains
`"July 1"` and names a year in range (2005), with a parseable `POP` value,
should contribute that value under its year; the code contributes nothing
because `extract_year_from_text` (raw-string pattern with a doubled
backslash) returns `None` for every such description, so the reconciled map
stays empty. -/
theorem claim_C2_july_selection_code_bug :
    fetch_pep_us_population
        { a7 := none, a07 := none,
          b := some [["DATE_DESC", "POP"], ["July 1, 2005 estimate", "295000000"]],
          c := none, d := none }
        2005 2005 = .ok [] ∧
      pyContains "July 1, 2005 estimate" "July 1" = true ∧
      pyContains "July 1, 2005 estimate" "2005" = true ∧
      parse_float (some "295000000") = some 295000000 ∧
      extract_year_from_text "July 1, 2005 estimate" = .ok none :=
  ⟨rfl, rfl, rfl, rfl, rfl⟩
